import Mathlib

/-!
Verification development for the `twin` build-loop orchestrator.

The definitions below are a shallow embedding of the cycle controller
(`build` in the build module), the steering intake (`processSteer`), the
agent invocation channel's sentinel handling (`runIteration`,
`parseEvent`), the story retry loop, and the taste-profile advisory lock
(`acquireTwinLock` in twin-global).  External effects (the spawned agent,
the language-model call, the filesystem, wall-clock time, the SIGINT
signal) are modelled as explicit oracle parameters; control flow, counters
and string manipulation are translated directly from the JavaScript
source.  Definitions come first, the theorems settling the claims follow.
-/

namespace Twin

/-! ## JavaScript string primitives

`listPref pat s` decides whether `pat` is a prefix of `s`;
`jsReplaceChars pat repl s` mirrors `String.prototype.replace` with a
string pattern, which replaces only the FIRST occurrence (or returns the
string unchanged when the pattern does not occur); `hasSub` mirrors
`String.prototype.includes`. -/

def listPref : List Char → List Char → Bool
  | [], _ => true
  | _ :: _, [] => false
  | a :: as, b :: bs => a == b && listPref as bs

def jsReplaceChars (pat repl : List Char) : List Char → List Char
  | [] => if listPref pat [] then repl else []
  | c :: rest =>
    if listPref pat (c :: rest) then repl ++ (c :: rest).drop pat.length
    else c :: jsReplaceChars pat repl rest

def hasSub (pat : List Char) : List Char → Bool
  | [] => listPref pat []
  | c :: rest => listPref pat (c :: rest) || hasSub pat rest

/-- Index of the first occurrence of `pat` in `s` (specification-side
helper used to characterise first-occurrence replacement). -/
def firstIdx (pat : List Char) : List Char → Option Nat
  | [] => if listPref pat [] then some 0 else none
  | c :: rest =>
    if listPref pat (c :: rest) then some 0
    else (firstIdx pat rest).map (· + 1)

/-- Remove the first occurrence of `pat` from `s`, leaving `s` unchanged
when `pat` does not occur (specification-side helper). -/
def removeFirstOcc (pat s : List Char) : List Char :=
  match firstIdx pat s with
  | none => s
  | some i => s.take i ++ s.drop (i + pat.length)

def jsReplaceStr (s pat repl : String) : String :=
  String.mk (jsReplaceChars pat.data repl.data s.data)

def strIncludes (s pat : String) : Bool :=
  hasSub pat.data s.data

/-! ## Sentinel markers and the agent channel's text handling -/

def COMPLETION_SIGNAL : String := "<twin>STORY_COMPLETE</twin>"

def ALL_DONE_SIGNAL : String := "<twin>ALL_COMPLETE</twin>"

/-- Per-fragment display transformation applied by `runIteration`'s data
handler before writing assistant text to stdout:
`event.text.replace(COMPLETION_SIGNAL, '').replace(ALL_DONE_SIGNAL, '')`. -/
def displayOf (text : String) : String :=
  jsReplaceStr (jsReplaceStr text COMPLETION_SIGNAL "") ALL_DONE_SIGNAL ""

/-- Completion detection applied by `build` to the concatenated output:
`output.includes(COMPLETION_SIGNAL) || output.includes(ALL_DONE_SIGNAL)`. -/
def detectsCompletion (output : String) : Bool :=
  strIncludes output COMPLETION_SIGNAL || strIncludes output ALL_DONE_SIGNAL

/-- Accumulated text state of one `runIteration`: `output` is the
concatenation handed back to the caller, `displayed` the concatenation of
everything written to the user's stdout. -/
structure IterDisplay where
  output : String
  displayed : String
deriving Repr, DecidableEq

/-- Mirrors the data handler's text case: `output += event.text` and the
display of `event.text.replace(COMPLETION_SIGNAL, '').replace(ALL_DONE_SIGNAL, '')`. -/
def dataStep (acc : IterDisplay) (t : String) : IterDisplay :=
  { output := acc.output ++ t,
    displayed := acc.displayed ++ displayOf t }

/-- Mirrors the close handler's leftover-buffer case:
`process.stdout.write(event.text); output += event.text;` — the trailing
fragment is displayed with no sentinel stripping at all.  `trailing` is
the text of the event parsed from the trimmed leftover buffer, when there
is one. -/
def closeStep (acc : IterDisplay) (trailing : Option String) : IterDisplay :=
  match trailing with
  | some t => { output := acc.output ++ t, displayed := acc.displayed ++ t }
  | none => acc

/-- Text reduction of one full `runIteration`: the streamed assistant-text
fragments in arrival order through the data handler, then the trailing
buffer fragment through the close handler. -/
def runIterationText (fragments : List String) (trailing : Option String) :
    IterDisplay :=
  closeStep (fragments.foldl dataStep { output := "", displayed := "" }) trailing

/-- Specification-side concatenation of the character data of a list of
strings. -/
def charsJoin : List String → List Char
  | [] => []
  | s :: rest => s.data ++ charsJoin rest

/-! ## Data model: user stories and the prd.json ledger -/

structure Story where
  id : String
  title : String
  status : String
deriving Repr, DecidableEq

structure Prd where
  userStories : List Story
deriving Repr, DecidableEq

/-- Mirrors `prd.userStories.filter((s) => s.status !== 'done')`. -/
def openStories (p : Prd) : List Story :=
  p.userStories.filter (fun s => s.status != "done")

def openCount (p : Prd) : Nat := (openStories p).length

/-! ## Story retry loop (build module, attempt loop inside `build`) -/

def STORY_RETRIES : Nat := 2

def STORY_RETRY_DELAYS : List Nat := [10000, 30000]

structure AttemptResult where
  succeeded : Bool
  attempts : Nat
  delays : List Nat
  failureNotes : Nat
deriving Repr, DecidableEq

/-- One pass of the `for (let attempt = 0; attempt <= STORY_RETRIES; ...)`
loop body, starting at index `attempt` with `remaining` loop iterations
left; `codes` is the oracle giving the agent invocation's exit code for
each attempt.  Sleeps incurred before a retry are accumulated in `delays`;
`failureNotes` counts appends of the skipped-story note to progress.md. -/
def attemptFrom (codes : Nat → Int) : Nat → Nat → List Nat → AttemptResult
  | attempt, 0, delays =>
    { succeeded := false, attempts := attempt, delays := delays, failureNotes := 0 }
  | attempt, r + 1, delays =>
    let delays' := if attempt > 0
      then delays ++ [STORY_RETRY_DELAYS.getD (attempt - 1) 0]
      else delays
    if codes attempt ≠ 0 then
      if attempt < STORY_RETRIES then
        attemptFrom codes (attempt + 1) r delays'
      else
        { succeeded := false, attempts := attempt + 1, delays := delays',
          failureNotes := 1 }
    else
      { succeeded := true, attempts := attempt + 1, delays := delays',
        failureNotes := 0 }

def runAttempts (codes : Nat → Int) : AttemptResult :=
  attemptFrom codes 0 (STORY_RETRIES + 1) []

/-! ## Cycle controller (`build` in the build module)

The while-loop `while (totalBuilt < maxStories)` is embedded as a
fuel-indexed recursion.  Everything the loop body observes from outside —
the `stopping` flag set by the SIGINT handler, the prd.json contents after
the per-cycle re-read (which the steering intake and the agent process may
have rewritten), the success of a story build after its retries, the
prd.json contents the agent leaves behind, the planner's result, and the
wall clock — is an oracle indexed by the iteration number. -/

inductive StopReason
  | interrupted
  | complete
  | exhausted
  | deadline
  | quota
  | earlyComplete
deriving Repr, DecidableEq

structure LoopResult where
  totalBuilt : Nat
  cycles : Nat
  reason : StopReason
  summaryOut : Option String
  planCalls : Nat
deriving Repr, DecidableEq

structure CycleEnv where
  stopRequested : Nat → Bool
  prdAtReread : Nat → Prd → Prd
  buildSucceeds : Nat → Bool
  prdAfterBuild : Nat → Prd → Prd
  planResult : Nat → List Story
  elapsedMs : Nat → Nat

/-- Mirrors `summary(totalBuilt, cycles, elapsed)` from the build module;
`Math.round(elapsed / 60000)` is round-half-up on the minute count. -/
def summary (totalBuilt cycles elapsed : Nat) : String :=
  let mins := (elapsed + 30000) / 60000
  let time := if mins > 0 then s!" in {mins}m" else ""
  let cycleNote := if cycles > 1 then s!" across {cycles} cycles" else ""
  s!"{totalBuilt} stories built{cycleNote}{time}"

/-- The guard `timeLimitMs && (Date.now() - startTime) >= timeLimitMs`:
false when no limit is set (`maxMinutes` null, `timeLimitMs` null),
otherwise the elapsed-time comparison. -/
def deadlineHit (timeLimitMs : Option Nat) (elapsed : Nat) : Bool :=
  match timeLimitMs with
  | some lim => lim ≤ elapsed
  | none => false

/-- The build loop from iteration `it` on, given `fuel` remaining
iterations to model.  `summaryOut` records the summary block each stop
path prints: every in-loop stop path prints
`summary(totalBuilt, cycle, Date.now() - startTime)`, while the post-loop
quota path prints only under `totalBuilt > 0 && totalBuilt >= maxStories`.
`planCalls` counts `runPlan` invocations. -/
def runCycles (env : CycleEnv) (maxStories : Nat) (loopMode : Bool)
    (timeLimitMs : Option Nat) :
    Nat → Nat → Nat → Nat → Nat → Prd → Option LoopResult
  | 0, _, _, _, _, _ => none
  | fuel + 1, it, totalBuilt, cycle, plans, prd =>
    if totalBuilt < maxStories then
      if env.stopRequested it then
        some { totalBuilt := totalBuilt, cycles := cycle, reason := .interrupted,
               summaryOut := some (summary totalBuilt cycle (env.elapsedMs it)),
               planCalls := plans }
      else
        let currentPrd := env.prdAtReread it prd
        if openCount currentPrd = 0 then
          if !loopMode then
            some { totalBuilt := totalBuilt, cycles := cycle, reason := .complete,
                   summaryOut := some (summary totalBuilt cycle (env.elapsedMs it)),
                   planCalls := plans }
          else
            let newStories := env.planResult it
            if newStories.length = 0 then
              some { totalBuilt := totalBuilt, cycles := cycle, reason := .exhausted,
                     summaryOut := some (summary totalBuilt cycle (env.elapsedMs it)),
                     planCalls := plans + 1 }
            else
              runCycles env maxStories loopMode timeLimitMs fuel (it + 1)
                totalBuilt (cycle + 1) (plans + 1)
                ⟨currentPrd.userStories ++ newStories⟩
        else
          if deadlineHit timeLimitMs (env.elapsedMs it) then
            some { totalBuilt := totalBuilt, cycles := cycle, reason := .deadline,
                   summaryOut := some (summary totalBuilt cycle (env.elapsedMs it)),
                   planCalls := plans }
          else
            runCycles env maxStories loopMode timeLimitMs fuel (it + 1)
              (if env.buildSucceeds it then totalBuilt + 1 else totalBuilt)
              cycle plans (env.prdAfterBuild it currentPrd)
    else
      some { totalBuilt := totalBuilt, cycles := cycle, reason := .quota,
             summaryOut := if 0 < totalBuilt
               then some (summary totalBuilt cycle (env.elapsedMs it))
               else none,
             planCalls := plans }

/-- Mirrors `build` from the open-stories check on: the pre-loop exit
`if (openStories.length === 0 && !loop)` prints "All stories are done."
with two suggested next commands — but no summary block — and exits 0;
otherwise the while loop (`runCycles`) runs with `totalBuilt = 0` and
`cycle = 1`. -/
def buildRun (env : CycleEnv) (maxStories : Nat) (loopMode : Bool)
    (timeLimitMs : Option Nat) (fuel : Nat) (p : Prd) : Option LoopResult :=
  if openCount p = 0 && !loopMode then
    some { totalBuilt := 0, cycles := 1, reason := .earlyComplete,
           summaryOut := none, planCalls := 0 }
  else
    runCycles env maxStories loopMode timeLimitMs fuel 0 0 1 0 p

/-- An agent run that builds exactly one story: the first non-done story
is set to `done` (status transitions forward, everything else is kept). -/
def markFirstOpenDone : List Story → List Story
  | [] => []
  | s :: rest =>
    if s.status != "done" then { s with status := "done" } :: rest
    else s :: markFirstOpenDone rest

/-- The well-behaved environment of the C1 scenario: no interrupt, no
out-of-band prd edits between cycles, every build attempt succeeds and
marks exactly one open story done. -/
def idealEnv : CycleEnv :=
  { stopRequested := fun _ => false
    prdAtReread := fun _ p => p
    buildSucceeds := fun _ => true
    prdAfterBuild := fun _ p => ⟨markFirstOpenDone p.userStories⟩
    planResult := fun _ => []
    elapsedMs := fun _ => 0 }

def samplePrd : Prd :=
  ⟨[{ id := "US-001", title := "a", status := "open" },
    { id := "US-002", title := "b", status := "open" },
    { id := "US-003", title := "c", status := "open" }]⟩

inductive SigintAction
  | record
  | hardExit
deriving Repr, DecidableEq

/-- The SIGINT handler installed by `build`:
`if (stopping) process.exit(1); stopping = true;` — returns the action
taken and the new value of the `stopping` flag. -/
def onSigint (stopping : Bool) : SigintAction × Bool :=
  if stopping then (.hardExit, stopping) else (.record, true)

def c5Env : CycleEnv :=
  { stopRequested := fun i => i == 1
    prdAtReread := fun _ p => p
    buildSucceeds := fun _ => true
    prdAfterBuild := fun _ p => ⟨markFirstOpenDone p.userStories⟩
    planResult := fun _ => []
    elapsedMs := fun _ => 0 }

def c6Env : CycleEnv :=
  { stopRequested := fun _ => false
    prdAtReread := fun _ p => p
    buildSucceeds := fun _ => true
    prdAfterBuild := fun _ p => p
    planResult := fun _ => []
    elapsedMs := fun _ => 5000 }

def donePrd : Prd := ⟨[{ id := "US-001", title := "d", status := "done" }]⟩

/-! ## Steering intake (`processSteer` in the build module)

The language-model collaborator (`callLLM`, which rejects on failure) is
an `Except Unit String` oracle; `JSON.parse` of the fence-stripped
response is a platform primitive, abstracted as a
`String → Option SteerJson` oracle.  The taste-profile append under the
advisory lock may succeed, or raise while acquiring the lock, or raise
while writing (the `finally` still releases the lock in the latter
case). -/

structure SteerJson where
  newStories : List Story
  twinAppend : Option String
deriving Repr, DecidableEq

structure SteerState where
  steer : Option String
  prd : Prd
  twin : String
deriving Repr, DecidableEq

inductive TwinEvent
  | lockAcquired
  | twinWritten
  | lockReleased
deriving Repr, DecidableEq

inductive TwinWriteOutcome
  | ok
  | lockRaise
  | writeRaise
deriving Repr, DecidableEq

structure SteerOutcome where
  state : SteerState
  threw : Bool
  twinEvents : List TwinEvent
deriving Repr, DecidableEq

def jsTrimEnd (s : String) : String :=
  String.mk (s.data.reverse.dropWhile Char.isWhitespace).reverse

def jsTrim (s : String) : String :=
  String.mk ((s.data.dropWhile Char.isWhitespace).reverse.dropWhile
    Char.isWhitespace).reverse

/-- The guard `if (!steerContent?.trim()) return;`: absent file
(`readIfExists` returned null) or all-whitespace content means no-op. -/
def steerPending : Option String → Bool
  | none => false
  | some s => !(jsTrim s).isEmpty

/-- JavaScript truthiness of `string | null`: null and the empty string
are falsy (`if (json.twinAppend)`). -/
def truthyStr : Option String → Bool
  | none => false
  | some s => !s.isEmpty

/-- Mirrors `parseInt(m[0], 10)` on a run of decimal digits. -/
def digitsVal (l : List Char) : Nat :=
  l.foldl (fun a c => a * 10 + (c.toNat - 48)) 0

/-- Mirrors `s.id?.match(/\d+/)` then `parseInt`: the first maximal digit run of
the string, as a number; `none` when the string has no digit. -/
def firstNumber : List Char → Option Nat
  | [] => none
  | c :: rest =>
    if c.isDigit then some (digitsVal (c :: rest.takeWhile Char.isDigit))
    else firstNumber rest

/-- One step of
`prd.userStories.reduce((max, s) => m ? Math.max(max, parseInt(m[0])) : max, 0)`. -/
def maxNumStep (mx : Nat) (s : Story) : Nat :=
  match firstNumber s.id.data with
  | some n => max mx n
  | none => mx

def maxNumOf (stories : List Story) : Nat :=
  stories.foldl maxNumStep 0

/-- Mirrors `String(maxNum + 1).padStart(3, '0')`. -/
def padStart3 (s : String) : String :=
  if s.length ≥ 3 then s else String.mk (List.replicate (3 - s.length) '0') ++ s

/-- Mirrors the computation of `nextId` from `maxNum` — the
next available story id suggested to the model. -/
def nextIdOf (p : Prd) : String :=
  "US-" ++ padStart3 (toString (maxNumOf p.userStories + 1))

/-- The steering intake.  In source order: no-op on an absent/blank
steer.md; the model call (a rejection propagates, mutating nothing); the
JSON parse (a failure logs one line and returns, mutating nothing);
appending the returned stories to prd.json and persisting; the
taste-profile append under the advisory lock (a raise propagates, leaving
steer.md uncleared); finally clearing steer.md to the empty string. -/
def processSteer (st : SteerState) (llm : Except Unit String)
    (parse : String → Option SteerJson) (tw : TwinWriteOutcome) :
    SteerOutcome :=
  if !(steerPending st.steer) then { state := st, threw := false, twinEvents := [] }
  else
    match llm with
    | .error _ => { state := st, threw := true, twinEvents := [] }
    | .ok response =>
      match parse response with
      | none => { state := st, threw := false, twinEvents := [] }
      | some json =>
        let st1 : SteerState :=
          if 0 < json.newStories.length then
            { st with prd := ⟨st.prd.userStories ++ json.newStories⟩ }
          else st
        if truthyStr json.twinAppend then
          match tw with
          | .ok =>
            let txt := json.twinAppend.getD ""
            let st2 := { st1 with
              twin := jsTrimEnd st1.twin ++ "\n\n" ++ txt ++ "\n" }
            { state := { st2 with steer := some "" }, threw := false,
              twinEvents := [.lockAcquired, .twinWritten, .lockReleased] }
          | .lockRaise => { state := st1, threw := true, twinEvents := [] }
          | .writeRaise =>
            { state := st1, threw := true,
              twinEvents := [.lockAcquired, .lockReleased] }
        else
          { state := { st1 with steer := some "" }, threw := false,
            twinEvents := [] }

/-! ## Taste-profile advisory lock (`acquireTwinLock` in twin-global) -/

inductive FsTry
  | created
  | alreadyExists
  | otherErr
deriving Repr, DecidableEq

inductive LockOutcome
  | acquired
  | staleOverride
  | raised
deriving Repr, DecidableEq

structure LockResult where
  outcome : LockOutcome
  attempts : Nat
  sleeps : List Nat
deriving Repr, DecidableEq

def MAX_RETRIES : Nat := 5

def RETRY_DELAY : Nat := 1000

/-- The `for (let i = 0; i < MAX_RETRIES; i++)` loop of `acquireTwinLock`
from index `i` with `remaining` iterations left.  `tries i` is the
filesystem outcome of the atomic `writeFile(lockPath, pid, { flag: 'wx' })`
at attempt `i`: created, or failed with `EEXIST`, or failed otherwise.
On `EEXIST` before the last iteration the caller sleeps `RETRY_DELAY` and
retries; on `EEXIST` at the last iteration the loop ends and the lock is
treated as stale (the path is returned and the caller proceeds); any
other error is rethrown. -/
def lockGo (tries : Nat → FsTry) : Nat → Nat → List Nat → LockResult
  | i, 0, sleeps => { outcome := .staleOverride, attempts := i, sleeps := sleeps }
  | i, r + 1, sleeps =>
    match tries i with
    | .created => { outcome := .acquired, attempts := i + 1, sleeps := sleeps }
    | .alreadyExists =>
      if i < MAX_RETRIES - 1 then lockGo tries (i + 1) r (sleeps ++ [RETRY_DELAY])
      else lockGo tries (i + 1) r sleeps
    | .otherErr => { outcome := .raised, attempts := i + 1, sleeps := sleeps }

def acquireTwinLockModel (tries : Nat → FsTry) : LockResult :=
  lockGo tries 0 MAX_RETRIES []

def steerSt : SteerState :=
  { steer := some "prefer dark mode", prd := samplePrd, twin := "# taste" }

def dupJson : SteerJson :=
  { newStories := [{ id := "US-001", title := "dup", status := "open" }],
    twinAppend := none }

def dupSteerState : SteerState :=
  { steer := some "add a story",
    prd := ⟨[{ id := "US-001", title := "existing", status := "open" }]⟩,
    twin := "t" }

def newStory4 : Story := { id := "US-004", title := "new", status := "open" }

def lockJson : SteerJson :=
  { newStories := [], twinAppend := some "likes terse code" }

def c10Json : SteerJson :=
  { newStories := [{ id := "US-004", title := "steered", status := "open" }],
    twinAppend := some "ship small" }

/-! ## Lemmas about the string primitives -/

theorem listPref_iff (pat : List Char) :
    ∀ s : List Char, listPref pat s = true ↔ ∃ rest, s = pat ++ rest := by
  induction pat with
  | nil =>
    intro s
    simp [listPref]
  | cons a as ih =>
    intro s
    cases s with
    | nil =>
      simp [listPref]
    | cons b bs =>
      simp only [listPref, Bool.and_eq_true, beq_iff_eq, ih]
      constructor
      · rintro ⟨rfl, rest, rfl⟩
        exact ⟨rest, rfl⟩
      · rintro ⟨rest, h⟩
        cases h
        exact ⟨rfl, rest, rfl⟩

theorem hasSub_iff (pat : List Char) :
    ∀ s : List Char, hasSub pat s = true ↔ ∃ pre post, s = pre ++ pat ++ post := by
  intro s
  induction s with
  | nil =>
    simp only [hasSub, listPref_iff]
    constructor
    · rintro ⟨rest, h⟩
      exact ⟨[], rest, by simpa using h⟩
    · rintro ⟨pre, post, h⟩
      rcases List.append_eq_nil.mp h.symm with ⟨h1, h2⟩
      rcases List.append_eq_nil.mp h1 with ⟨h3, h4⟩
      exact ⟨[], by simp [h4]⟩
  | cons c rest ih =>
    simp only [hasSub, Bool.or_eq_true, listPref_iff, ih]
    constructor
    · rintro (⟨r, hr⟩ | ⟨pre, post, h⟩)
      · exact ⟨[], r, by simpa using hr⟩
      · exact ⟨c :: pre, post, by simp [h]⟩
    · rintro ⟨pre, post, h⟩
      cases pre with
      | nil => exact Or.inl ⟨post, by simpa using h⟩
      | cons p ps =>
        right
        have h' : c = p ∧ rest = ps ++ pat ++ post := by simpa using h
        exact ⟨ps, post, h'.2⟩

theorem jsReplaceChars_eq_removeFirstOcc (pat : List Char) :
    ∀ s : List Char, jsReplaceChars pat [] s = removeFirstOcc pat s := by
  intro s
  induction s with
  | nil =>
    by_cases h : listPref pat [] = true <;>
      simp [jsReplaceChars, removeFirstOcc, firstIdx, h]
  | cons c rest ih =>
    by_cases h : listPref pat (c :: rest) = true
    · simp [jsReplaceChars, removeFirstOcc, firstIdx, h]
    · simp only [jsReplaceChars, removeFirstOcc, firstIdx, h, if_neg,
        Bool.not_eq_true] at ih ⊢
      rw [ih]
      cases hfi : firstIdx pat rest with
      | none => simp [removeFirstOcc, hfi]
      | some i => simp [removeFirstOcc, hfi, List.take_succ_cons, Nat.succ_add]

/-! ## Claim C4 -/

/-- Claim C4, refuted at a concrete input: a streamed assistant-text
fragment consisting of the completion sentinel twice is displayed with the
sentinel still present, because `String.prototype.replace` with a string
pattern removes only the first occurrence.  The claim's "strips every
occurrence of both sentinels before any of that text is displayed" is
therefore false. -/
theorem sentinel_strip_counterexample :
    displayOf (COMPLETION_SIGNAL ++ COMPLETION_SIGNAL) = COMPLETION_SIGNAL
    ∧ strIncludes (displayOf (COMPLETION_SIGNAL ++ COMPLETION_SIGNAL))
        COMPLETION_SIGNAL = true := by
  constructor <;> decide

theorem hasSub_append_left (pat a b : List Char)
    (h : hasSub pat b = true) : hasSub pat (a ++ b) = true := by
  rw [hasSub_iff] at h ⊢
  obtain ⟨pre, post, rfl⟩ := h
  exact ⟨a ++ pre, post, by simp⟩

theorem foldl_dataStep_data (fragments : List String) :
    ∀ acc : IterDisplay,
      (fragments.foldl dataStep acc).displayed.data
          = acc.displayed.data ++ charsJoin (fragments.map displayOf)
      ∧ (fragments.foldl dataStep acc).output.data
          = acc.output.data ++ charsJoin fragments := by
  induction fragments with
  | nil => intro acc; simp [charsJoin]
  | cons f rest ih =>
    intro acc
    have h := ih (dataStep acc f)
    simp only [List.foldl_cons, List.map_cons, charsJoin] at h ⊢
    constructor
    · rw [h.1]
      simp [dataStep, String.data_append]
    · rw [h.2]
      simp [dataStep, String.data_append]

/-- Claim C4 (amended): the agent channel detects completion exactly when
the concatenated assistant text contains either literal sentinel
substring.  Each assistant-text fragment processed by the streaming data
handler is displayed with the first occurrence of the story-complete
sentinel and then the first occurrence of the all-complete sentinel
removed (later occurrences within the same fragment are kept); the
trailing-buffer fragment processed by the close handler is displayed
unmodified, with no stripping — a sentinel carried in that final fragment
reaches the user's display. -/
theorem sentinel_strip_paths (out t trailing : String)
    (fragments : List String) :
    (detectsCompletion out = true ↔
      (∃ pre post, out.data = pre ++ COMPLETION_SIGNAL.data ++ post) ∨
      (∃ pre post, out.data = pre ++ ALL_DONE_SIGNAL.data ++ post))
    ∧ (displayOf t).data =
        removeFirstOcc ALL_DONE_SIGNAL.data
          (removeFirstOcc COMPLETION_SIGNAL.data t.data)
    ∧ (runIterationText fragments (some trailing)).displayed.data
        = charsJoin (fragments.map displayOf) ++ trailing.data
    ∧ (runIterationText fragments (some trailing)).output.data
        = charsJoin fragments ++ trailing.data
    ∧ (strIncludes trailing COMPLETION_SIGNAL = true →
        strIncludes (runIterationText fragments (some trailing)).displayed
          COMPLETION_SIGNAL = true) := by
  have hfold := foldl_dataStep_data fragments
    { output := "", displayed := "" }
  have hdisp : (runIterationText fragments (some trailing)).displayed.data
      = charsJoin (fragments.map displayOf) ++ trailing.data := by
    simp only [runIterationText, closeStep, String.data_append, hfold.1]
    simp
  refine ⟨?_, ?_, hdisp, ?_, ?_⟩
  · simp [detectsCompletion, strIncludes, hasSub_iff]
  · simp [displayOf, jsReplaceStr, jsReplaceChars_eq_removeFirstOcc]
  · simp only [runIterationText, closeStep, String.data_append, hfold.2]
    simp
  · intro h
    unfold strIncludes at h ⊢
    rw [hdisp]
    exact hasSub_append_left _ _ _ h

/-- Witness for `sentinel_strip_paths`: a completion sentinel arriving in
the trailing buffer at close is displayed to the user unstripped. -/
theorem sentinel_strip_paths_witness :
    strIncludes COMPLETION_SIGNAL COMPLETION_SIGNAL = true ∧
    strIncludes (runIterationText ["hi"] (some COMPLETION_SIGNAL)).displayed
      COMPLETION_SIGNAL = true := by
  have h := sentinel_strip_paths "" "" COMPLETION_SIGNAL ["hi"]
  exact ⟨by decide, h.2.2.2.2 (by decide)⟩

/-! ## Claim C2 -/

/-- Claim C2: when all three agent invocations exit non-zero, the attempt
loop makes exactly 3 attempts, sleeping 10s before the first retry and 30s
before the second, appends exactly one failure note to the progress log,
reports no success, and (mirroring `if (succeeded) totalBuilt++`) the
story does not count toward the quota. -/
theorem story_retry_exhaustion (codes : Nat → Int)
    (h0 : codes 0 ≠ 0) (h1 : codes 1 ≠ 0) (h2 : codes 2 ≠ 0) :
    runAttempts codes =
      { succeeded := false, attempts := 3, delays := [10000, 30000],
        failureNotes := 1 }
    ∧ ∀ totalBuilt : Nat,
        (if (runAttempts codes).succeeded then totalBuilt + 1 else totalBuilt)
          = totalBuilt := by
  have : runAttempts codes =
      { succeeded := false, attempts := 3, delays := [10000, 30000],
        failureNotes := 1 } := by
    simp [runAttempts, attemptFrom, h0, h1, h2, STORY_RETRIES,
      STORY_RETRY_DELAYS]
  exact ⟨this, fun totalBuilt => by simp [this]⟩

/-- Witness for `story_retry_exhaustion` at the constant exit code 1. -/
theorem story_retry_exhaustion_witness :
    (1 : Int) ≠ 0 ∧
    runAttempts (fun _ => (1 : Int)) =
      { succeeded := false, attempts := 3, delays := [10000, 30000],
        failureNotes := 1 } :=
  ⟨by decide,
    (story_retry_exhaustion (fun _ => (1 : Int)) (by decide) (by decide)
      (by decide)).1⟩

/-! ## Claim C1 -/

theorem openCount_markFirstOpenDone (l : List Story) :
    openCount ⟨markFirstOpenDone l⟩ = openCount ⟨l⟩ - 1 := by
  induction l with
  | nil => rfl
  | cons s rest ih =>
    by_cases h : (s.status != "done") = true
    · simp [markFirstOpenDone, openCount, openStories, h]
    · simp only [markFirstOpenDone, h, if_neg, Bool.not_eq_true] at ih ⊢
      simp only [Bool.not_eq_true] at h
      simp only [openCount, openStories, List.filter_cons, h] at ih ⊢
      exact ih

theorem runCycles_ideal (Q : Nat) (fuel : Nat) :
    ∀ it tb cycle plans (p : Prd),
      min (Q - tb) (openCount p) < fuel →
      ∃ r, runCycles idealEnv Q false none fuel it tb cycle plans p = some r ∧
        r.totalBuilt = tb + min (Q - tb) (openCount p) := by
  induction fuel with
  | zero =>
    intro it tb cycle plans p hf
    exact absurd hf (Nat.not_lt_zero _)
  | succ f ih =>
    intro it tb cycle plans p hf
    by_cases htb : tb < Q
    · by_cases hop : openCount p = 0
      · refine ⟨{ totalBuilt := tb, cycles := cycle, reason := .complete,
                  summaryOut := some (summary tb cycle 0), planCalls := plans },
            ?_, ?_⟩
        · simp [runCycles, htb, idealEnv, hop]
        · simp [hop]
      · have hcount : openCount ⟨markFirstOpenDone p.userStories⟩ = openCount p - 1 :=
          openCount_markFirstOpenDone p.userStories
        have hmin : min (Q - (tb + 1)) (openCount p - 1)
            = min (Q - tb) (openCount p) - 1 := by
          rw [show Q - (tb + 1) = Q - tb - 1 by omega, Nat.sub_min_sub_right]
        have hmin1 : 1 ≤ min (Q - tb) (openCount p) := by
          have h1 : 1 ≤ Q - tb := by omega
          have h2 : 1 ≤ openCount p := by omega
          exact le_min h1 h2
        obtain ⟨r, hr, hrtb⟩ := ih (it + 1) (tb + 1) cycle plans
          ⟨markFirstOpenDone p.userStories⟩ (by rw [hcount, hmin]; omega)
        refine ⟨r, ?_, ?_⟩
        · simpa [runCycles, htb, idealEnv, hop] using hr
        · rw [hrtb, hcount, hmin]
          omega
    · refine ⟨{ totalBuilt := tb, cycles := cycle, reason := .quota,
                summaryOut := if 0 < tb then some (summary tb cycle 0) else none,
                planCalls := plans }, ?_, ?_⟩
      · simp [runCycles, htb, idealEnv]
      · have : Q - tb = 0 := by omega
        simp [this]

/-- The general quota invariant: whatever the environment does, the loop
guard `while (totalBuilt < maxStories)` keeps the built count at or below
the quota (provided it starts there). -/
theorem runCycles_totalBuilt_le (env : CycleEnv) (Q : Nat) (loopMode : Bool)
    (tl : Option Nat) (fuel : Nat) :
    ∀ it tb cycle plans (p : Prd) (r : LoopResult), tb ≤ Q →
      runCycles env Q loopMode tl fuel it tb cycle plans p = some r →
      r.totalBuilt ≤ Q := by
  induction fuel with
  | zero => intro it tb cycle plans p r _ h; simp [runCycles] at h
  | succ f ih =>
    intro it tb cycle plans p r htb h
    by_cases hlt : tb < Q
    · simp only [runCycles, hlt, if_pos] at h
      by_cases hstop : env.stopRequested it = true
      · rw [if_pos hstop] at h
        injection h with h
        subst h
        exact htb
      · rw [if_neg hstop] at h
        by_cases hop : openCount (env.prdAtReread it p) = 0
        · rw [if_pos hop] at h
          cases loopMode with
          | false =>
            simp only [Bool.not_false, if_pos] at h
            injection h with h
            subst h
            exact htb
          | true =>
            simp only [Bool.not_true, Bool.false_eq_true, if_neg, reduceIte] at h
            by_cases hpl : (env.planResult it).length = 0
            · rw [if_pos hpl] at h
              injection h with h
              subst h
              exact htb
            · rw [if_neg hpl] at h
              exact ih _ _ _ _ _ _ htb h
        · rw [if_neg hop] at h
          by_cases hdl : deadlineHit tl (env.elapsedMs it) = true
          · rw [if_pos hdl] at h
            injection h with h
            subst h
            exact htb
          · rw [if_neg hdl] at h
            refine ih _ _ _ _ _ _ ?_ h
            by_cases hb : env.buildSucceeds it = true <;> simp [hb] <;> omega
    · simp only [runCycles, hlt, if_neg, reduceIte] at h
      injection h with h
      subst h
      simpa using htb

/-- Claim C1: for every quota `Q ≥ 0`, a non-loop invocation
(`loop = false`, `maxStories = Q`) with a well-behaved agent builds
exactly `min(Q, number of open stories)` stories, and — for any
environment whatsoever — the built count never exceeds `Q`. -/
theorem build_quota_min (Q fuel : Nat) (p : Prd)
    (hf : min Q (openCount p) < fuel) :
    (∃ r, runCycles idealEnv Q false none fuel 0 0 1 0 p = some r ∧
       r.totalBuilt = min Q (openCount p) ∧ r.totalBuilt ≤ Q)
    ∧ ∀ (env : CycleEnv) (loopMode : Bool) (tl : Option Nat)
        (f it cycle plans : Nat) (q : Prd) (r : LoopResult),
        runCycles env Q loopMode tl f it 0 cycle plans q = some r →
        r.totalBuilt ≤ Q := by
  constructor
  · obtain ⟨r, hr, hrtb⟩ := runCycles_ideal Q fuel 0 0 1 0 p (by simpa using hf)
    exact ⟨r, hr, by simpa using hrtb, by rw [hrtb]; simp [Nat.min_le_left]⟩
  · intro env loopMode tl f it cycle plans q r h
    exact runCycles_totalBuilt_le env Q loopMode tl f it 0 cycle plans q r
      (Nat.zero_le _) h

/-- Witness for `build_quota_min`: quota 2 against 3 open stories builds
exactly 2. -/
theorem build_quota_min_witness :
    min 2 (openCount samplePrd) < 4 ∧
    ((∃ r, runCycles idealEnv 2 false none 4 0 0 1 0 samplePrd = some r ∧
        r.totalBuilt = min 2 (openCount samplePrd) ∧ r.totalBuilt ≤ 2)
     ∧ ∀ (env : CycleEnv) (loopMode : Bool) (tl : Option Nat)
         (f it cycle plans : Nat) (q : Prd) (r : LoopResult),
         runCycles env 2 loopMode tl f it 0 cycle plans q = some r →
         r.totalBuilt ≤ 2) :=
  ⟨by decide, build_quota_min 2 4 samplePrd (by decide)⟩

/-! ## Claim C9 -/

/-- Claim C9, refuted at a concrete input: with `maxStories = 0`
(reachable via `--stories 0`) the loop stops for the quota with zero
stories built, and the post-loop block
`if (totalBuilt > 0 && totalBuilt >= maxStories)` prints nothing — no
summary is reported on this stop. -/
theorem quota_zero_no_summary :
    runCycles idealEnv 0 false none 1 0 0 1 0 samplePrd =
      some { totalBuilt := 0, cycles := 1, reason := .quota,
             summaryOut := none, planCalls := 0 } := by
  decide

/-- Helper for the stop-summary claim: every in-loop stop path of the
while loop prints `summary(totalBuilt, cycle, elapsed)`, the quota path
prints it exactly when `totalBuilt > 0`, and the loop never produces the
pre-loop `earlyComplete` stop. -/
theorem runCycles_summary_paths (env : CycleEnv) (Q : Nat) (loopMode : Bool)
    (tl : Option Nat) (fuel : Nat) :
    ∀ it tb cycle plans (p : Prd) (r : LoopResult),
      runCycles env Q loopMode tl fuel it tb cycle plans p = some r →
      (r.reason ≠ .quota →
        ∃ e, r.summaryOut = some (summary r.totalBuilt r.cycles e))
      ∧ (r.reason = .quota → 0 < r.totalBuilt →
          ∃ e, r.summaryOut = some (summary r.totalBuilt r.cycles e))
      ∧ (r.reason = .quota → r.totalBuilt = 0 → r.summaryOut = none)
      ∧ r.reason ≠ .earlyComplete := by
  induction fuel with
  | zero => intro it tb cycle plans p r h; simp [runCycles] at h
  | succ f ih =>
    intro it tb cycle plans p r h
    by_cases hlt : tb < Q
    · simp only [runCycles, hlt, if_pos] at h
      by_cases hstop : env.stopRequested it = true
      · rw [if_pos hstop] at h
        injection h with h
        subst h
        exact ⟨fun _ => ⟨env.elapsedMs it, rfl⟩, by simp, by simp, by simp⟩
      · rw [if_neg hstop] at h
        by_cases hop : openCount (env.prdAtReread it p) = 0
        · rw [if_pos hop] at h
          cases loopMode with
          | false =>
            simp only [Bool.not_false, if_pos] at h
            injection h with h
            subst h
            exact ⟨fun _ => ⟨env.elapsedMs it, rfl⟩, by simp, by simp, by simp⟩
          | true =>
            simp only [Bool.not_true, Bool.false_eq_true, if_neg, reduceIte] at h
            by_cases hpl : (env.planResult it).length = 0
            · rw [if_pos hpl] at h
              injection h with h
              subst h
              exact ⟨fun _ => ⟨env.elapsedMs it, rfl⟩, by simp, by simp, by simp⟩
            · rw [if_neg hpl] at h
              exact ih _ _ _ _ _ _ h
        · rw [if_neg hop] at h
          by_cases hdl : deadlineHit tl (env.elapsedMs it) = true
          · rw [if_pos hdl] at h
            injection h with h
            subst h
            exact ⟨fun _ => ⟨env.elapsedMs it, rfl⟩, by simp, by simp, by simp⟩
          · rw [if_neg hdl] at h
            exact ih _ _ _ _ _ _ h
    · simp only [runCycles, hlt, if_neg, reduceIte] at h
      injection h with h
      subst h
      refine ⟨by simp, ?_, ?_, by simp⟩
      · intro _ hpos
        simp only at hpos ⊢
        rw [if_pos hpos]
        exact ⟨env.elapsedMs it, rfl⟩
      · intro _ hzero
        simp only at hzero ⊢
        simp [hzero]

/-- Claim C9 (amended): on every stop of `build` the controller reports a
summary containing the count of stories built, the cycles elapsed and the
elapsed wall-clock time — except two paths: a quota stop reached with
zero stories built (`maxStories = 0`), and the pre-loop exit of a
non-loop invocation that finds zero open stories, which prints "All
stories are done." with suggested commands but no summary block. -/
theorem build_stop_summary (env : CycleEnv) (Q : Nat) (loopMode : Bool)
    (tl : Option Nat) (fuel : Nat) (p : Prd) :
    ∀ r : LoopResult, buildRun env Q loopMode tl fuel p = some r →
      (r.reason ≠ .quota → r.reason ≠ .earlyComplete →
        ∃ e, r.summaryOut = some (summary r.totalBuilt r.cycles e))
      ∧ (r.reason = .quota → 0 < r.totalBuilt →
          ∃ e, r.summaryOut = some (summary r.totalBuilt r.cycles e))
      ∧ (r.reason = .quota → r.totalBuilt = 0 → r.summaryOut = none)
      ∧ (r.reason = .earlyComplete → r.summaryOut = none) := by
  intro r h
  unfold buildRun at h
  by_cases hpre : (openCount p = 0 && !loopMode) = true
  · rw [if_pos hpre] at h
    injection h with h
    subst h
    exact ⟨fun _ hne => absurd rfl hne, by simp, by simp, fun _ => rfl⟩
  · rw [if_neg hpre] at h
    have h4 := runCycles_summary_paths env Q loopMode tl fuel 0 0 1 0 p r h
    exact ⟨fun hq _ => h4.1 hq, h4.2.1, h4.2.2.1,
      fun he => absurd he h4.2.2.2⟩

/-- Witness for `build_stop_summary`: a non-loop run that starts with
zero open stories stops before the loop and prints no summary. -/
theorem build_stop_summary_witness :
    ∃ r, buildRun idealEnv 3 false none 1 donePrd = some r ∧
      r.reason = .earlyComplete ∧ r.summaryOut = none := by
  refine ⟨{ totalBuilt := 0, cycles := 1, reason := .earlyComplete,
            summaryOut := none, planCalls := 0 }, by decide, rfl, ?_⟩
  exact (build_stop_summary idealEnv 3 false none 1 donePrd _ (by decide)).2.2.2 rfl

/-! ## Claim C5 -/

/-- Claim C5: a first interrupt never aborts an in-flight build.  If the
stop flag is clear when iteration `it` checks it and an interrupt arrives
during that iteration's build (the flag reads true at iteration `it+1`),
the build at `it` still runs to completion and its success still counts;
the loop then stops with the `interrupted` reason at the top of the next
cycle.  A second interrupt while already stopping takes the hard-exit
path of the handler, while a first interrupt merely records the request. -/
theorem interrupt_drains_build (env : CycleEnv) (Q : Nat) (loopMode : Bool)
    (f it tb cycle plans : Nat) (p : Prd)
    (hstop0 : env.stopRequested it = false)
    (hstop1 : env.stopRequested (it + 1) = true)
    (hopen : openCount (env.prdAtReread it p) ≠ 0)
    (htb : tb < Q)
    (htb1 : (if env.buildSucceeds it then tb + 1 else tb) < Q) :
    runCycles env Q loopMode none (f + 2) it tb cycle plans p =
      some { totalBuilt := if env.buildSucceeds it then tb + 1 else tb,
             cycles := cycle, reason := .interrupted,
             summaryOut := some (summary
               (if env.buildSucceeds it then tb + 1 else tb) cycle
               (env.elapsedMs (it + 1))),
             planCalls := plans }
    ∧ onSigint false = (.record, true)
    ∧ onSigint true = (.hardExit, true) := by
  refine ⟨?_, rfl, rfl⟩
  have step1 : runCycles env Q loopMode none (f + 2) it tb cycle plans p =
      runCycles env Q loopMode none (f + 1) (it + 1)
        (if env.buildSucceeds it then tb + 1 else tb) cycle plans
        (env.prdAfterBuild it (env.prdAtReread it p)) := by
    simp only [runCycles, if_pos htb, hstop0, Bool.false_eq_true, if_neg,
      reduceIte, if_neg hopen, deadlineHit]
  rw [step1]
  simp only [runCycles, if_pos htb1, hstop1, if_pos, reduceIte]

/-- Witness for `interrupt_drains_build`: the interrupt arrives during the
first build; that build completes and counts, then the loop stops. -/
theorem interrupt_drains_build_witness :
    c5Env.stopRequested 0 = false ∧ c5Env.stopRequested 1 = true ∧
    runCycles c5Env 5 false none 2 0 0 1 0 samplePrd =
      some { totalBuilt := 1, cycles := 1, reason := .interrupted,
             summaryOut := some (summary 1 1 0), planCalls := 0 } := by
  refine ⟨rfl, rfl, ?_⟩
  have h := (interrupt_drains_build c5Env 5 false 0 0 0 1 0 samplePrd rfl rfl
    (by decide) (by decide) (by decide)).1
  simpa using h

/-! ## Claim C6 -/

/-- Claim C6, refuted at a concrete input: with the deadline already
exceeded (elapsed 5000ms against a 1000ms limit) and no open stories in
loop mode, the controller invokes the planner anyway (`planCalls = 1`) and
stops as `exhausted`, not `deadline`.  The deadline is therefore not
evaluated before invoking the planner — only before starting a new story
build. -/
theorem deadline_skips_planner_check :
    deadlineHit (some 1000) (c6Env.elapsedMs 0) = true ∧
    runCycles c6Env 5 true (some 1000) 3 0 0 1 0 donePrd =
      some { totalBuilt := 0, cycles := 1, reason := .exhausted,
             summaryOut := some (summary 0 1 5000), planCalls := 1 } := by
  exact ⟨by decide, by decide⟩

/-- Claim C6 (amended): when `maxMinutes` is set, the deadline is
evaluated only at the boundary before starting a new story build; the
planning path performs no deadline check.  Once the check passes, the
iteration's outcome is the build step itself — the build's result is
consumed with no further deadline consultation, so an in-flight build is
never preempted and may finish arbitrarily long past the deadline. -/
theorem deadline_only_before_build (env : CycleEnv) (Q : Nat)
    (loopMode : Bool) (lim f it tb cycle plans : Nat) (p : Prd)
    (hstop : env.stopRequested it = false)
    (htb : tb < Q)
    (hopen : openCount (env.prdAtReread it p) ≠ 0) :
    (lim ≤ env.elapsedMs it →
      runCycles env Q loopMode (some lim) (f + 1) it tb cycle plans p =
        some { totalBuilt := tb, cycles := cycle, reason := .deadline,
               summaryOut := some (summary tb cycle (env.elapsedMs it)),
               planCalls := plans })
    ∧ (env.elapsedMs it < lim →
      runCycles env Q loopMode (some lim) (f + 1) it tb cycle plans p =
        runCycles env Q loopMode (some lim) f (it + 1)
          (if env.buildSucceeds it then tb + 1 else tb) cycle plans
          (env.prdAfterBuild it (env.prdAtReread it p))) := by
  constructor
  · intro hdl
    have hd : deadlineHit (some lim) (env.elapsedMs it) = true := by
      simpa [deadlineHit] using hdl
    simp only [runCycles, if_pos htb, hstop, Bool.false_eq_true, if_neg,
      reduceIte, if_neg hopen, hd, if_pos]
  · intro hdl
    have hd : deadlineHit (some lim) (env.elapsedMs it) = false := by
      simp [deadlineHit]
      omega
    simp only [runCycles, if_pos htb, hstop, Bool.false_eq_true, if_neg,
      reduceIte, if_neg hopen, hd]

/-- Witness for `deadline_only_before_build`: a run already 5000ms in with
a 1000ms limit stops for the deadline before building. -/
theorem deadline_only_before_build_witness :
    c6Env.stopRequested 0 = false ∧ (0 : Nat) < 5 ∧ openCount samplePrd ≠ 0 ∧
    (1000 : Nat) ≤ c6Env.elapsedMs 0 ∧
    runCycles c6Env 5 false (some 1000) 1 0 0 1 0 samplePrd =
      some { totalBuilt := 0, cycles := 1, reason := .deadline,
             summaryOut := some (summary 0 1 5000), planCalls := 0 } := by
  refine ⟨rfl, by decide, by decide, by decide, ?_⟩
  exact (deadline_only_before_build c6Env 5 false 1000 0 0 0 1 0 samplePrd rfl
    (by decide) (by decide)).1 (by decide)

/-! ## Claim C3 -/

/-- Claim C3: with pending steering input, a failed model call propagates
with ledger, taste profile and steering file all unchanged; an
unparseable response returns with all three unchanged; and the steering
file ends up cleared to empty only when the model call returned a
response that parsed as the required JSON shape. -/
theorem steer_failure_no_mutation (st : SteerState) (llm : Except Unit String)
    (parse : String → Option SteerJson) (tw : TwinWriteOutcome)
    (hp : steerPending st.steer = true) :
    (llm = .error () →
      processSteer st llm parse tw = { state := st, threw := true, twinEvents := [] })
    ∧ (∀ s, llm = .ok s → parse s = none →
      processSteer st llm parse tw = { state := st, threw := false, twinEvents := [] })
    ∧ ((processSteer st llm parse tw).state.steer = some "" →
      ∃ s j, llm = .ok s ∧ parse s = some j) := by
  refine ⟨?_, ?_, ?_⟩
  · rintro rfl
    simp [processSteer, hp]
  · rintro s rfl hn
    simp [processSteer, hp, hn]
  · intro hclear
    have hne : st.steer ≠ some "" := by
      intro hsteer
      rw [hsteer] at hp
      exact absurd hp (by decide)
    cases llm with
    | error u =>
      exfalso
      apply hne
      rw [← hclear]
      simp [processSteer, hp]
    | ok s =>
      cases hparse : parse s with
      | none =>
        exfalso
        apply hne
        rw [← hclear]
        simp [processSteer, hp, hparse]
      | some j => exact ⟨s, j, rfl, hparse⟩

/-- Witness for `steer_failure_no_mutation`: a failed model call against a
concrete pending steering state changes nothing and is reported as
thrown. -/
theorem steer_failure_no_mutation_witness :
    steerPending steerSt.steer = true ∧
    processSteer steerSt (.error ()) (fun _ => none) .ok =
      { state := steerSt, threw := true, twinEvents := [] } :=
  ⟨by decide,
    (steer_failure_no_mutation steerSt (.error ()) (fun _ => none) .ok
      (by decide)).1 rfl⟩

/-! ## Claim C8 -/

/-- Claim C8, refuted at a concrete input: `processSteer` appends the
model-returned stories to the ledger without validating their
identifiers, so a response reusing an existing id leaves the ledger with
a duplicate — the identifier added by steering is not distinct from the
one already present. -/
theorem steer_id_collision :
    dupSteerState.prd.userStories.map Story.id = ["US-001"] ∧
    ((processSteer dupSteerState (.ok "resp") (fun _ => some dupJson)
        .ok).state.prd.userStories.map Story.id) = ["US-001", "US-001"] := by
  exact ⟨rfl, by decide⟩

theorem foldl_maxNumStep_init_le (l : List Story) :
    ∀ a : Nat, a ≤ l.foldl maxNumStep a := by
  induction l with
  | nil => intro a; simp
  | cons s rest ih =>
    intro a
    refine le_trans ?_ (ih (maxNumStep a s))
    unfold maxNumStep
    cases firstNumber s.id.data with
    | none => simp
    | some n => simp [Nat.le_max_left]

theorem mem_le_maxNumOf (l : List Story) :
    ∀ (a : Nat) (s : Story) (n : Nat), s ∈ l →
      firstNumber s.id.data = some n → n ≤ l.foldl maxNumStep a := by
  induction l with
  | nil => intro a s n h; cases h
  | cons t rest ih =>
    intro a s n hmem hn
    rcases List.mem_cons.mp hmem with rfl | hmem'
    · refine le_trans ?_ (foldl_maxNumStep_init_le rest (maxNumStep a s))
      simp [maxNumStep, hn, Nat.le_max_right]
    · exact ih (maxNumStep a t) s n hmem' hn

/-- Claim C8 (amended): the numeric component of the next identifier that
steering suggests to the model (`maxNum + 1`) strictly exceeds every
numeric component present in the ledger; consequently, when the returned
stories carry identifiers with numeric components above `maxNum` (as the
prompt instructs: the suggested id, incrementing), they are distinct from
every identifier already in the ledger, and after such an application the
suggestion for the next steering application in the same run is strictly
larger. -/
theorem steer_next_id_fresh (p : Prd) (new : List Story)
    (hnew : ∀ t ∈ new, ∃ n, firstNumber t.id.data = some n ∧
      maxNumOf p.userStories < n)
    (hne : new ≠ []) :
    (∀ s ∈ p.userStories, ∀ t ∈ new, s.id ≠ t.id)
    ∧ maxNumOf p.userStories + 1 < maxNumOf (p.userStories ++ new) + 1
    ∧ nextIdOf p = "US-" ++ padStart3 (toString (maxNumOf p.userStories + 1)) := by
  refine ⟨?_, ?_, rfl⟩
  · intro s hs t ht heq
    obtain ⟨n, hn, hlt⟩ := hnew t ht
    have hsn : firstNumber s.id.data = some n := by rw [heq]; exact hn
    have := mem_le_maxNumOf p.userStories 0 s n hs hsn
    exact absurd this (by unfold maxNumOf at hlt; omega)
  · obtain ⟨t, ht⟩ := List.exists_mem_of_ne_nil new hne
    obtain ⟨n, hn, hlt⟩ := hnew t ht
    have : n ≤ maxNumOf (p.userStories ++ new) :=
      mem_le_maxNumOf (p.userStories ++ new) 0 t n
        (List.mem_append.mpr (Or.inr ht)) hn
    omega

/-- Witness for `steer_next_id_fresh`: a story with the suggested id
`US-004` collides with nothing in a ledger whose ids reach `US-003`, and
the next suggestion strictly increases. -/
theorem steer_next_id_fresh_witness :
    ({ id := "US-001", title := "a", status := "open" } : Story).id ≠ newStory4.id
    ∧ maxNumOf samplePrd.userStories + 1
        < maxNumOf (samplePrd.userStories ++ [newStory4]) + 1 := by
  have h := steer_next_id_fresh samplePrd [newStory4]
    (by
      intro t ht
      have ht' : t = newStory4 := by simpa using ht
      subst ht'
      exact ⟨4, by decide, by decide⟩)
    (by decide)
  exact ⟨h.1 _ (by decide) newStory4 (by decide), h.2.1⟩

/-! ## Claim C7 -/

theorem lockGo_attempts_le (tries : Nat → FsTry) :
    ∀ (r i : Nat) (sleeps : List Nat),
      (lockGo tries i r sleeps).attempts ≤ i + r := by
  intro r
  induction r with
  | zero => intro i sleeps; simp [lockGo]
  | succ q ih =>
    intro i sleeps
    cases hti : tries i with
    | created => simp only [lockGo, hti]; omega
    | alreadyExists =>
      by_cases hi : i < MAX_RETRIES - 1
      · have := ih (i + 1) (sleeps ++ [RETRY_DELAY])
        simp only [lockGo, hti, if_pos hi]
        omega
      · have := ih (i + 1) sleeps
        simp only [lockGo, hti, if_neg hi]
        omega
    | otherErr => simp only [lockGo, hti]; omega

/-- Claim C7: acquiring the taste-profile lock is an atomic fail-if-exists
file creation; it makes at most 5 creation attempts; when the lock file
already exists at every attempt it sleeps 1 second before each of the 4
retries and then returns with the lock treated as stale (the caller
proceeds anyway, no exception and no indefinite blocking); and in the
steering intake the lock is acquired before the taste-profile write and
released after it. -/
theorem twin_lock_policy (tries : Nat → FsTry) (st : SteerState) (s : String)
    (parse : String → Option SteerJson) (j : SteerJson)
    (hex : ∀ i, tries i = .alreadyExists)
    (hp : steerPending st.steer = true)
    (hparse : parse s = some j)
    (hta : truthyStr j.twinAppend = true) :
    (∀ tr : Nat → FsTry, (acquireTwinLockModel tr).attempts ≤ 5)
    ∧ acquireTwinLockModel tries =
        { outcome := .staleOverride, attempts := 5,
          sleeps := [1000, 1000, 1000, 1000] }
    ∧ (processSteer st (.ok s) parse .ok).twinEvents =
        [.lockAcquired, .twinWritten, .lockReleased] := by
  refine ⟨?_, ?_, ?_⟩
  · intro tr
    simpa using lockGo_attempts_le tr MAX_RETRIES 0 []
  · simp [acquireTwinLockModel, lockGo, hex, MAX_RETRIES, RETRY_DELAY]
  · simp [processSteer, hp, hparse, hta]

/-- Witness for `twin_lock_policy` at the always-contended lock and a
concrete taste-profile append. -/
theorem twin_lock_policy_witness :
    steerPending steerSt.steer = true ∧
    acquireTwinLockModel (fun _ => .alreadyExists) =
      { outcome := .staleOverride, attempts := 5,
        sleeps := [1000, 1000, 1000, 1000] } ∧
    (processSteer steerSt (.ok "resp") (fun _ => some lockJson) .ok).twinEvents =
      [.lockAcquired, .twinWritten, .lockReleased] := by
  have h := twin_lock_policy (fun _ => .alreadyExists) steerSt "resp"
    (fun _ => some lockJson) lockJson (fun _ => rfl) (by decide) rfl (by decide)
  exact ⟨by decide, h.2.1, h.2.2⟩

/-! ## Claim C10 -/

/-- Claim C10: a steering application is not atomic.  New stories are
persisted to the ledger before the taste-profile append and before the
steering file is cleared; when the profile write raises after the stories
were persisted, the ledger already holds them while the steering file is
left uncleared (and the taste profile untouched), so the same steering
input is still pending and a second application appends the same stories
again. -/
theorem steer_not_atomic (st : SteerState) (s : String)
    (parse : String → Option SteerJson) (j : SteerJson)
    (hp : steerPending st.steer = true)
    (hparse : parse s = some j)
    (hns : 0 < j.newStories.length)
    (hta : truthyStr j.twinAppend = true) :
    (processSteer st (.ok s) parse .writeRaise).state.prd.userStories
      = st.prd.userStories ++ j.newStories
    ∧ (processSteer st (.ok s) parse .writeRaise).state.steer = st.steer
    ∧ (processSteer st (.ok s) parse .writeRaise).state.twin = st.twin
    ∧ (processSteer st (.ok s) parse .writeRaise).threw = true
    ∧ steerPending (processSteer st (.ok s) parse .writeRaise).state.steer = true
    ∧ (processSteer (processSteer st (.ok s) parse .writeRaise).state
        (.ok s) parse .writeRaise).state.prd.userStories
      = st.prd.userStories ++ j.newStories ++ j.newStories := by
  have h1 : processSteer st (.ok s) parse .writeRaise =
      { state := { st with prd := ⟨st.prd.userStories ++ j.newStories⟩ },
        threw := true, twinEvents := [.lockAcquired, .lockReleased] } := by
    simp [processSteer, hp, hparse, hns, hta]
  refine ⟨by rw [h1], by rw [h1], by rw [h1], by rw [h1], ?_, ?_⟩
  · rw [h1]
    exact hp
  · rw [h1]
    simp [processSteer, hp, hparse, hns, hta]

/-- Witness for `steer_not_atomic`: a concrete steering application whose
taste-profile write raises persists the new story yet leaves steer.md
uncleared. -/
theorem steer_not_atomic_witness :
    steerPending steerSt.steer = true ∧
    (processSteer steerSt (.ok "resp") (fun _ => some c10Json)
        .writeRaise).state.prd.userStories
      = steerSt.prd.userStories ++ c10Json.newStories ∧
    (processSteer steerSt (.ok "resp") (fun _ => some c10Json)
        .writeRaise).state.steer = steerSt.steer := by
  have h := steer_not_atomic steerSt "resp" (fun _ => some c10Json) c10Json
    (by decide) rfl (by decide) (by decide)
  exact ⟨by decide, h.1, h.2.1⟩
